import Mathlib

/-!
Verification model of the WhatsApp chat preprocessing pipeline
(`preprocessor.py`): text normalisation, date-format detection, message
grouping, record extraction, date resolution, enrichment and validation.

Library calls whose behaviour lives outside the repository are modelled as
explicit parameters collected in `PyEnv`:
* `norm` models `unicodedata.normalize('NFKC', ·)`;
* `genericParse` models `pd.to_datetime` called without a `format` argument;
* `quoteOk` models whether `urllib.parse.quote` succeeds on a string;
* `countEmojis` models the emoji counter (the source picks between the
  `emoji` package and a regex fallback depending on the environment).
All other code is translated directly from the source.
-/

set_option maxHeartbeats 1000000
set_option maxRecDepth 8000

namespace WChat

/-! ## Timestamps

A resolved timestamp, as produced by `pd.to_datetime`: the calendar and
clock fields of the parsed value. -/

structure PDateTime where
  year : Nat
  month : Nat
  day : Nat
  hour : Nat
  minute : Nat
  second : Nat
deriving DecidableEq, Repr

/-- Chronological sort key; injective on in-range field values, matching
comparison of pandas timestamps. -/
def dtKey (dt : PDateTime) : Nat :=
  ((((dt.year * 13 + dt.month) * 32 + dt.day) * 24 + dt.hour) * 60 + dt.minute) * 60
    + dt.second

/-- Environment of library functions the source delegates to. -/
structure PyEnv where
  norm : String → String
  genericParse : String → Option PDateTime
  quoteOk : String → Bool
  countEmojis : String → Nat

/-! ## Character predicates used by `clean_text` -/

/-- Characters removed by the control-character substitution
`re.sub` over the ranges 00-08, 0B, 0C, 0E-1F and 7F. -/
def isCtrlChar (c : Char) : Bool :=
  c.toNat ≤ 0x08 || c.toNat = 0x0B || c.toNat = 0x0C ||
    (0x0E ≤ c.toNat && c.toNat ≤ 0x1F) || c.toNat = 0x7F

/-- Whitespace in the sense of Python `str.strip()`. -/
def pyIsSpaceChar (c : Char) : Bool :=
  c = ' ' || c = '\t' || c = '\n' || c.toNat = 0x0B || c.toNat = 0x0C || c = '\r' ||
    (0x1C ≤ c.toNat && c.toNat ≤ 0x1F) || c.toNat = 0x85 || c.toNat = 0xA0 ||
    c.toNat = 0x1680 || (0x2000 ≤ c.toNat && c.toNat ≤ 0x200A) ||
    c.toNat = 0x2028 || c.toNat = 0x2029 || c.toNat = 0x202F ||
    c.toNat = 0x205F || c.toNat = 0x3000

/-- One character of the WhatsApp-artifact pass: U+202F is replaced by a
space, the bidi marks U+200E and U+200F are dropped, everything else kept. -/
def artifactStep (c : Char) : Option Char :=
  if c = '\u202F' then some ' '
  else if c = '\u200E' ∨ c = '\u200F' then none
  else some c

def stripControlL (l : List Char) : List Char :=
  l.filter (fun c => !isCtrlChar c)

def artifactL (l : List Char) : List Char :=
  l.filterMap artifactStep

def trimLeftL (l : List Char) : List Char :=
  l.dropWhile pyIsSpaceChar

def trimRightL (l : List Char) : List Char :=
  (l.reverse.dropWhile pyIsSpaceChar).reverse

/-- Python `str.strip()`. -/
def pyStripL (l : List Char) : List Char :=
  trimRightL (trimLeftL l)

/-- `clean_text` from the source: strip control characters, handle WhatsApp
artifacts, apply Unicode normalisation (`env.norm`), and strip surrounding
whitespace.  The percent-encoding probe of the source
(`urllib.parse.quote(text)`) can only fail on lone surrogates, which Lean
strings cannot contain, so its aggressive-filter branch is unreachable in
the model. -/
def clean_text (norm : String → String) (s : String) : String :=
  ⟨pyStripL (norm ⟨artifactL (stripControlL s.data)⟩).data⟩

/-! ## strptime-style parsing with an explicit format

Models `pd.to_datetime(date_str, format=fmt)` for the directive set the
source uses (%m %d %y %Y %H %I %M %S %p): a structural match with
regex-style backtracking for the one-or-two-digit fields, followed by
range validation of the captured values. -/

/-- Components captured during the structural match. -/
structure RawComp where
  m : Option Nat := none
  d : Option Nat := none
  y2 : Option Nat := none
  y4 : Option Nat := none
  h24 : Option Nat := none
  h12 : Option Nat := none
  minu : Option Nat := none
  sec : Option Nat := none
  pm : Option Bool := none
deriving Repr

/-- Numeric value of a decimal digit character. -/
def dval (c : Char) : Nat := c.toNat - 48

/-- Structural matcher: first argument is the remaining format, second the
remaining input.  One-or-two-digit directives try the two-digit read first
and backtrack to one digit, as the greedy regexes of Python `_strptime` do;
the whole input must be consumed. -/
def fmtMatch : List Char → List Char → RawComp → Option RawComp
  | [], [], acc => some acc
  | [], _ :: _, _ => none
  | '%' :: 'm' :: fr, a :: b :: r, acc =>
    if a.isDigit && b.isDigit then
      (fmtMatch fr r { acc with m := some (dval a * 10 + dval b) }) <|>
        (fmtMatch fr (b :: r) { acc with m := some (dval a) })
    else if a.isDigit then fmtMatch fr (b :: r) { acc with m := some (dval a) }
    else none
  | '%' :: 'm' :: fr, [a], acc =>
    if a.isDigit then fmtMatch fr [] { acc with m := some (dval a) } else none
  | '%' :: 'm' :: _, [], _ => none
  | '%' :: 'd' :: fr, a :: b :: r, acc =>
    if a.isDigit && b.isDigit then
      (fmtMatch fr r { acc with d := some (dval a * 10 + dval b) }) <|>
        (fmtMatch fr (b :: r) { acc with d := some (dval a) })
    else if a.isDigit then fmtMatch fr (b :: r) { acc with d := some (dval a) }
    else none
  | '%' :: 'd' :: fr, [a], acc =>
    if a.isDigit then fmtMatch fr [] { acc with d := some (dval a) } else none
  | '%' :: 'd' :: _, [], _ => none
  | '%' :: 'y' :: fr, a :: b :: r, acc =>
    if a.isDigit && b.isDigit then
      (fmtMatch fr r { acc with y2 := some (dval a * 10 + dval b) }) <|>
        (fmtMatch fr (b :: r) { acc with y2 := some (dval a) })
    else if a.isDigit then fmtMatch fr (b :: r) { acc with y2 := some (dval a) }
    else none
  | '%' :: 'y' :: fr, [a], acc =>
    if a.isDigit then fmtMatch fr [] { acc with y2 := some (dval a) } else none
  | '%' :: 'y' :: _, [], _ => none
  | '%' :: 'H' :: fr, a :: b :: r, acc =>
    if a.isDigit && b.isDigit then
      (fmtMatch fr r { acc with h24 := some (dval a * 10 + dval b) }) <|>
        (fmtMatch fr (b :: r) { acc with h24 := some (dval a) })
    else if a.isDigit then fmtMatch fr (b :: r) { acc with h24 := some (dval a) }
    else none
  | '%' :: 'H' :: fr, [a], acc =>
    if a.isDigit then fmtMatch fr [] { acc with h24 := some (dval a) } else none
  | '%' :: 'H' :: _, [], _ => none
  | '%' :: 'I' :: fr, a :: b :: r, acc =>
    if a.isDigit && b.isDigit then
      (fmtMatch fr r { acc with h12 := some (dval a * 10 + dval b) }) <|>
        (fmtMatch fr (b :: r) { acc with h12 := some (dval a) })
    else if a.isDigit then fmtMatch fr (b :: r) { acc with h12 := some (dval a) }
    else none
  | '%' :: 'I' :: fr, [a], acc =>
    if a.isDigit then fmtMatch fr [] { acc with h12 := some (dval a) } else none
  | '%' :: 'I' :: _, [], _ => none
  | '%' :: 'M' :: fr, a :: b :: r, acc =>
    if a.isDigit && b.isDigit then
      (fmtMatch fr r { acc with minu := some (dval a * 10 + dval b) }) <|>
        (fmtMatch fr (b :: r) { acc with minu := some (dval a) })
    else if a.isDigit then fmtMatch fr (b :: r) { acc with minu := some (dval a) }
    else none
  | '%' :: 'M' :: fr, [a], acc =>
    if a.isDigit then fmtMatch fr [] { acc with minu := some (dval a) } else none
  | '%' :: 'M' :: _, [], _ => none
  | '%' :: 'S' :: fr, a :: b :: r, acc =>
    if a.isDigit && b.isDigit then
      (fmtMatch fr r { acc with sec := some (dval a * 10 + dval b) }) <|>
        (fmtMatch fr (b :: r) { acc with sec := some (dval a) })
    else if a.isDigit then fmtMatch fr (b :: r) { acc with sec := some (dval a) }
    else none
  | '%' :: 'S' :: fr, [a], acc =>
    if a.isDigit then fmtMatch fr [] { acc with sec := some (dval a) } else none
  | '%' :: 'S' :: _, [], _ => none
  | '%' :: 'Y' :: fr, a :: b :: c :: e :: r, acc =>
    if a.isDigit && b.isDigit && c.isDigit && e.isDigit then
      fmtMatch fr r
        { acc with y4 := some (((dval a * 10 + dval b) * 10 + dval c) * 10 + dval e) }
    else none
  | '%' :: 'Y' :: _, _, _ => none
  | '%' :: 'p' :: fr, a :: b :: r, acc =>
    if (a = 'A' || a = 'a') && (b = 'M' || b = 'm') then
      fmtMatch fr r { acc with pm := some false }
    else if (a = 'P' || a = 'p') && (b = 'M' || b = 'm') then
      fmtMatch fr r { acc with pm := some true }
    else none
  | '%' :: 'p' :: _, _, _ => none
  | c :: fr, i :: ir, acc => if c = i then fmtMatch fr ir acc else none
  | _ :: _, [], _ => none

def isLeap (y : Nat) : Bool := (y % 4 = 0 && y % 100 ≠ 0) || y % 400 = 0

def daysInMonth (y m : Nat) : Nat :=
  if m = 2 then (if isLeap y then 29 else 28)
  else if m = 4 || m = 6 || m = 9 || m = 11 then 30 else 31

/-- Range validation and construction, as performed by the `datetime`
constructor after a structural `strptime` match succeeds. -/
def buildDT (c : RawComp) : Option PDateTime :=
  let year :=
    match c.y4, c.y2 with
    | some v, _ => v
    | none, some v => if v ≤ 68 then 2000 + v else 1900 + v
    | none, none => 1900
  let mo := c.m.getD 1
  let dy := c.d.getD 1
  if !(1 ≤ mo && mo ≤ 12) then none
  else if !(1 ≤ dy && dy ≤ daysInMonth year mo) then none
  else
    let hh? : Option Nat :=
      match c.h24, c.h12, c.pm with
      | some v, _, _ => if v ≤ 23 then some v else none
      | none, some v, some pmv =>
        if 1 ≤ v && v ≤ 12 then some (if pmv then v % 12 + 12 else v % 12) else none
      | none, some v, none => if 1 ≤ v && v ≤ 12 then some v else none
      | none, none, _ => some 0
    match hh? with
    | none => none
    | some hh =>
      let mi := c.minu.getD 0
      let ss := c.sec.getD 0
      if mi ≤ 59 && ss ≤ 59 then some ⟨year, mo, dy, hh, mi, ss⟩ else none

/-- `pd.to_datetime(s, format=fmt)` for the formats the source uses. -/
def pyStrptime (fmt s : String) : Option PDateTime :=
  (fmtMatch fmt.data s.data {}) >>= buildDT

/-- The fixed list of formats tried by `parse_date_flexible`, in source
order. -/
def flexibleFormats : List String :=
  ["%m/%d/%y, %I:%M %p", "%d/%m/%y, %I:%M %p", "%m/%d/%Y, %I:%M %p",
   "%d/%m/%Y, %I:%M %p", "%m/%d/%y, %H:%M", "%d/%m/%y, %H:%M",
   "%d.%m.%y, %H:%M", "%Y-%m-%d, %H:%M:%S"]

/-- The `for fmt in formats: try ... except: continue` loop. -/
def tryFormats : List String → String → Option PDateTime
  | [], _ => none
  | f :: fs, s =>
    match pyStrptime f s with
    | some dt => some dt
    | none => tryFormats fs s

/-- `parse_date_flexible` from `enhance_dataframe`: the fixed format list,
then the generic best-effort parser (`pd.to_datetime` without format). -/
def parse_date_flexible (env : PyEnv) (s : String) : Option PDateTime :=
  match tryFormats flexibleFormats s with
  | some dt => some dt
  | none => env.genericParse s

/-- The sequence of explicit formats attempted on `s`, in order, ending at
the first success (the generic fallback is not an explicit format). -/
def parseAttempts : List String → String → List String
  | [], _ => []
  | f :: fs, s =>
    match pyStrptime f s with
    | some _ => [f]
    | none => f :: parseAttempts fs s

/-! ## Calendar derivations used by the enrichment stage -/

/-- Days since 0000-03-01 (Hinnant's civil-date algorithm, valid for the
years that occur in parsed records). -/
def daysFromCivil (y m d : Nat) : Nat :=
  let yy := if m ≤ 2 then y - 1 else y
  let era := yy / 400
  let yoe := yy % 400
  let mp := if m ≤ 2 then m + 9 else m - 3
  let doy := (153 * mp + 2) / 5 + (d - 1)
  let doe := yoe * 365 + yoe / 4 - yoe / 100 + doy
  era * 146097 + doe

/-- pandas `dt.dayofweek`: Monday = 0 … Sunday = 6. -/
def pyDayOfWeek (dt : PDateTime) : Nat :=
  (daysFromCivil dt.year dt.month dt.day + 2) % 7

def monthName : Nat → String
  | 1 => "January" | 2 => "February" | 3 => "March" | 4 => "April"
  | 5 => "May" | 6 => "June" | 7 => "July" | 8 => "August"
  | 9 => "September" | 10 => "October" | 11 => "November" | 12 => "December"
  | _ => ""

def dayNameOf : Nat → String
  | 0 => "Monday" | 1 => "Tuesday" | 2 => "Wednesday" | 3 => "Thursday"
  | 4 => "Friday" | 5 => "Saturday" | 6 => "Sunday" | _ => ""

def dayOfYear (dt : PDateTime) : Nat :=
  let pre :=
    match dt.month with
    | 1 => 0 | 2 => 31 | 3 => 59 | 4 => 90 | 5 => 120 | 6 => 151 | 7 => 181
    | 8 => 212 | 9 => 243 | 10 => 273 | 11 => 304 | 12 => 334 | _ => 0
  pre + dt.day + (if 2 < dt.month && isLeap dt.year then 1 else 0)

def isoWeekday (dt : PDateTime) : Nat := pyDayOfWeek dt + 1

def pCal (y : Nat) : Nat := (y + y / 4 - y / 100 + y / 400) % 7

def isoWeeksInYear (y : Nat) : Nat :=
  if pCal y = 4 || pCal (y - 1) = 3 then 53 else 52

/-- pandas `dt.isocalendar().week`. -/
def isoWeekOf (dt : PDateTime) : Nat :=
  let w := (dayOfYear dt + 10 - isoWeekday dt) / 7
  if w = 0 then isoWeeksInYear (dt.year - 1)
  else if w = 53 && isoWeeksInYear dt.year = 52 then 1
  else w

def epochSeconds (dt : PDateTime) : Nat :=
  daysFromCivil dt.year dt.month dt.day * 86400 + dt.hour * 3600 +
    dt.minute * 60 + dt.second

/-- `get_time_period` from the source, verbatim hour buckets. -/
def get_time_period (hour : Nat) : String :=
  if 5 ≤ hour ∧ hour < 12 then "Morning"
  else if 12 ≤ hour ∧ hour < 17 then "Afternoon"
  else if 17 ≤ hour ∧ hour < 21 then "Evening"
  else "Night"

def twoDigits (n : Nat) : String := (if n < 10 then "0" else "") ++ toString n

/-- The hour-bucket label `f"{x:02d}-{(x+1)%24:02d}"`. -/
def periodLabel (h : Nat) : String := twoDigits h ++ "-" ++ twoDigits ((h + 1) % 24)

/-! ## Message metrics -/

/-- Token counter behind `str.split().str.len()`: number of maximal runs of
non-whitespace characters. -/
def countTok : List Char → Bool → Nat
  | [], _ => 0
  | c :: t, inTok =>
    if pyIsSpaceChar c then countTok t false
    else (if inTok then 0 else 1) + countTok t true

def wordCount (s : String) : Nat := countTok s.data false

/-- Substring search underlying `Series.str.contains(pat)` for a pattern
with no regex metacharacters. -/
def containsSub : List Char → List Char → Bool
  | [], pat => pat.isEmpty
  | h :: t, pat => pat.isPrefixOf (h :: t) || containsSub t pat

def strContains (s pat : String) : Bool := containsSub s.data pat.data

/-- Character class of the URL regex: `[a-zA-Z]`, `[0-9]`, the range
`[$-_]` together with `@ . & +`, and `! * \ ( ) ,` (the `%XX` alternative
is subsumed because `%` lies in the `$`-to-`_` range). -/
def urlChar (c : Char) : Bool :=
  (0x24 ≤ c.toNat && c.toNat ≤ 0x5F) || c.isAlpha || c.isDigit ||
    c = '!' || c = '*' || c = '\\' || c = '(' || c = ')' || c = ','

def dropPrefixL (p l : List Char) : Option (List Char) :=
  if p.isPrefixOf l then some (l.drop p.length) else none

/-- One URL match attempt at the head of `l`: `http`, optional `s`,
`://`, then a non-empty greedy run of `urlChar`; returns the rest of the
input after the match. -/
def urlMatchRest (l : List Char) : Option (List Char) := do
  let r1 ← dropPrefixL "http".data l
  let r2 ←
    match r1 with
    | 's' :: rr => dropPrefixL "://".data rr
    | _ => dropPrefixL "://".data r1
  let run := r2.takeWhile urlChar
  if run.isEmpty then none else some (r2.drop run.length)

/-- `re.findall` scan: try a match at every position, skipping past each
match found.  Fuel equals the input length, which bounds the number of
steps. -/
def urlGo : Nat → List Char → Nat
  | 0, _ => 0
  | _ + 1, [] => 0
  | fuel + 1, c :: t =>
    match urlMatchRest (c :: t) with
    | some rest => 1 + urlGo fuel rest
    | none => urlGo fuel t

def urlCount (s : String) : Nat := urlGo s.data.length s.data

/-! ## Structural patterns: boundary detection and record extraction -/

/-- `(text, rest)` candidates for a greedy `\d{1,2}` read, two digits
first. -/
def takeDigits2or1 : List Char → List (List Char × List Char)
  | a :: b :: r =>
    if a.isDigit && b.isDigit then [([a, b], r), ([a], b :: r)]
    else if a.isDigit then [([a], b :: r)]
    else []
  | [a] => if a.isDigit then [([a], [])] else []
  | [] => []

/-- Exactly `n` digits. -/
def takeDigitsN : Nat → List Char → Option (List Char × List Char)
  | 0, l => some ([], l)
  | n + 1, c :: r =>
    if c.isDigit then (takeDigitsN n r).map (fun x => (c :: x.1, x.2)) else none
  | _ + 1, [] => none

def litL (t : String) (l : List Char) : Option (List Char) :=
  if t.data.isPrefixOf l then some (l.drop t.data.length) else none

/-- `\d{1,2}/\d{1,2}/\d{2}` with capture. -/
def pDate2 (l : List Char) : Option (List Char × List Char) :=
  (takeDigits2or1 l).findSome? fun x =>
    (litL "/" x.2).bind fun r2 =>
      (takeDigits2or1 r2).findSome? fun y =>
        (litL "/" y.2).bind fun r4 =>
          (takeDigitsN 2 r4).map fun z =>
            (x.1 ++ '/' :: (y.1 ++ '/' :: z.1), z.2)

/-- `\d{1,2}/\d{1,2}/\d{4}` with capture. -/
def pDate4 (l : List Char) : Option (List Char × List Char) :=
  (takeDigits2or1 l).findSome? fun x =>
    (litL "/" x.2).bind fun r2 =>
      (takeDigits2or1 r2).findSome? fun y =>
        (litL "/" y.2).bind fun r4 =>
          (takeDigitsN 4 r4).map fun z =>
            (x.1 ++ '/' :: (y.1 ++ '/' :: z.1), z.2)

/-- `\d{1,2}\.\d{1,2}\.\d{2}` with capture. -/
def pDateDot (l : List Char) : Option (List Char × List Char) :=
  (takeDigits2or1 l).findSome? fun x =>
    (litL "." x.2).bind fun r2 =>
      (takeDigits2or1 r2).findSome? fun y =>
        (litL "." y.2).bind fun r4 =>
          (takeDigitsN 2 r4).map fun z =>
            (x.1 ++ '.' :: (y.1 ++ '.' :: z.1), z.2)

/-- `\d{4}-\d{2}-\d{2}` with capture. -/
def pDateIso (l : List Char) : Option (List Char × List Char) :=
  (takeDigitsN 4 l).bind fun x =>
    (litL "-" x.2).bind fun r2 =>
      (takeDigitsN 2 r2).bind fun y =>
        (litL "-" y.2).bind fun r4 =>
          (takeDigitsN 2 r4).map fun z =>
            (x.1 ++ '-' :: (y.1 ++ '-' :: z.1), z.2)

/-- `\d{1,2}:\d{2} [AP]M` with capture. -/
def pTime12 (l : List Char) : Option (List Char × List Char) :=
  (takeDigits2or1 l).findSome? fun x =>
    (litL ":" x.2).bind fun r2 =>
      (takeDigitsN 2 r2).bind fun y =>
        (litL " " y.2).bind fun r4 =>
          match r4 with
          | a :: 'M' :: r5 =>
            if a = 'A' || a = 'P' then
              some (x.1 ++ ':' :: (y.1 ++ ' ' :: a :: ['M']), r5)
            else none
          | _ => none

/-- `\d{2}:\d{2}` with capture. -/
def pTime24 (l : List Char) : Option (List Char × List Char) :=
  (takeDigitsN 2 l).bind fun x =>
    (litL ":" x.2).bind fun r2 =>
      (takeDigitsN 2 r2).map fun y => (x.1 ++ ':' :: y.1, y.2)

/-- `\d{1,2}:\d{2}` with capture. -/
def pTimeH12M (l : List Char) : Option (List Char × List Char) :=
  (takeDigits2or1 l).findSome? fun x =>
    (litL ":" x.2).bind fun r2 =>
      (takeDigitsN 2 r2).map fun y => (x.1 ++ ':' :: y.1, y.2)

/-- `\d{2}:\d{2}:\d{2}` with capture. -/
def pTime24S (l : List Char) : Option (List Char × List Char) :=
  (takeDigitsN 2 l).bind fun x =>
    (litL ":" x.2).bind fun r2 =>
      (takeDigitsN 2 r2).bind fun y =>
        (litL ":" y.2).bind fun r4 =>
          (takeDigitsN 2 r4).map fun z =>
            (x.1 ++ ':' :: (y.1 ++ ':' :: z.1), z.2)

/-- The seven boundary patterns of `detect_date_format`, in source order. -/
inductive BPat where
  | mdY2ampm | mdY4ampm | mdY2t24 | mdY4t24 | bracketed | dotted | iso
deriving DecidableEq, Repr

/-- `re.match(pattern, line)` for a boundary pattern: anchored at the start
of the line, trailing input unconstrained. -/
def bmatch (p : BPat) (s : String) : Bool :=
  let l := s.data
  match p with
  | .mdY2ampm =>
    ((pDate2 l).bind fun x => (litL ", " x.2).bind fun r => pTime12 r).isSome
  | .mdY4ampm =>
    ((pDate4 l).bind fun x => (litL ", " x.2).bind fun r => pTime12 r).isSome
  | .mdY2t24 =>
    ((pDate2 l).bind fun x => (litL ", " x.2).bind fun r => pTime24 r).isSome
  | .mdY4t24 =>
    ((pDate4 l).bind fun x => (litL ", " x.2).bind fun r => pTime24 r).isSome
  | .bracketed =>
    ((litL "[" l).bind fun r0 =>
      (pDate2 r0).bind fun x =>
        (litL ", " x.2).bind fun r =>
          (pTime12 r).bind fun y => litL "]" y.2).isSome
  | .dotted =>
    ((pDateDot l).bind fun x => (litL ", " x.2).bind fun r => pTimeH12M r).isSome
  | .iso =>
    ((pDateIso l).bind fun x => (litL ", " x.2).bind fun r => pTime24S r).isSome

/-- The `zip(date_patterns, format_strings)` table of the detector. -/
def date_candidates : List (BPat × String) :=
  [(.mdY2ampm, "%m/%d/%y, %I:%M %p"),
   (.mdY4ampm, "%m/%d/%Y, %I:%M %p"),
   (.mdY2t24, "%m/%d/%y, %H:%M"),
   (.mdY4t24, "%m/%d/%Y, %H:%M"),
   (.bracketed, "%m/%d/%y, %I:%M %p"),
   (.dotted, "%d.%m.%y, %H:%M"),
   (.iso, "%Y-%m-%d, %H:%M:%S")]

def default_candidate : BPat × String := (.mdY2ampm, "%m/%d/%y, %I:%M %p")

/-- Outer loop of `detect_date_format`: first candidate whose pattern
matches one of the scanned lines (the inner loop is `lines[:20]`). -/
def detectAux : List (BPat × String) → List String → Option (BPat × String)
  | [], _ => none
  | c :: cs, ls => if ls.any (fun line => bmatch c.1 line) then some c else detectAux cs ls

def detect_date_format (lines : List String) : BPat × String :=
  (detectAux date_candidates (lines.take 20)).getD default_candidate

/-! ## Message grouping -/

/-- The accumulate-and-flush loop of `group_messages`; `cur` is
`current_msg`. -/
def groupGo (p : BPat) : List String → String → List String
  | [], cur => if cur ≠ "" then [cur] else []
  | line :: ls, cur =>
    if bmatch p line then
      (if cur ≠ "" then cur :: groupGo p ls line else groupGo p ls line)
    else
      if cur ≠ "" then groupGo p ls (cur ++ " " ++ line) else groupGo p ls cur

def group_messages (lines : List String) (p : BPat) : List String :=
  groupGo p lines ""

/-! ## Record extraction -/

/-- One row of the `data` dict built by `extract_message_data`. -/
structure ParsedRow where
  date : String
  user : String
  message : String
deriving DecidableEq, Repr

/-- Split at the first occurrence of the two-character separator `": "`,
the semantics of the lazy optional group `(?:(.*?): )?`. -/
def findColonSpace : List Char → Option (List Char × List Char)
  | [] => none
  | ':' :: ' ' :: t => some ([], t)
  | c :: t => (findColonSpace t).map fun x => (c :: x.1, x.2)

def userBody (l : List Char) : Option (List Char) × List Char :=
  match findColonSpace l with
  | some x => (some x.1, x.2)
  | none => (none, l)

/-- Shared shape of the non-bracketed extraction patterns:
`DATE ", " TIME " - " (?:(user): )?(body)`. -/
def eShape (pd pt : List Char → Option (List Char × List Char))
    (l : List Char) : Option (String × String × Option String × String) :=
  (pd l).bind fun x =>
    (litL ", " x.2).bind fun r2 =>
      (pt r2).bind fun y =>
        (litL " - " y.2).map fun r4 =>
          let ub := userBody r4
          (⟨x.1⟩, ⟨y.1⟩, ub.1.map (fun u => (⟨u⟩ : String)), ⟨ub.2⟩)

/-- The bracketed pattern `\[DATE, TIME\] (?:(user): )?(body)`. -/
def eShapeBr (l : List Char) : Option (String × String × Option String × String) :=
  (litL "[" l).bind fun r0 =>
    (pDate2 r0).bind fun x =>
      (litL ", " x.2).bind fun r2 =>
        (pTime12 r2).bind fun y =>
          (litL "] " y.2).map fun r4 =>
            let ub := userBody r4
            (⟨x.1⟩, ⟨y.1⟩, ub.1.map (fun u => (⟨u⟩ : String)), ⟨ub.2⟩)

/-- `for pattern in patterns: match = re.match(pattern, entry)` — the six
extraction patterns in source order, first full match wins. -/
def tryExtract (e : String) : Option (String × String × Option String × String) :=
  let l := e.data
  (eShape pDate2 pTime12 l) <|> (eShape pDate4 pTime12 l) <|>
    (eShape pDate2 pTime24 l) <|> (eShapeBr l) <|>
    (eShape pDateDot pTimeH12M l) <|> (eShape pDateIso pTime24S l)

/-- Per-entry body of `extract_message_data`: clean the entry, try the
patterns; on a match build the row (`None`/empty user resolves to
`system_notification`), otherwise emit the sentinel row with date
`"unknown"` and user `"unknown"`. -/
def extractEntry (env : PyEnv) (entry : String) : ParsedRow :=
  let e := clean_text env.norm entry
  match tryExtract e with
  | some (d, t, uRaw, bRaw) =>
    let datePart := clean_text env.norm d
    let timePart := clean_text env.norm t
    let user : Option String :=
      match uRaw with
      | none => none
      | some ru => if ru = "" then none else some (clean_text env.norm ru)
    { date := datePart ++ ", " ++ timePart
      user :=
        match user with
        | none => "system_notification"
        | some u => if u = "" then "system_notification" else u
      message := if bRaw = "" then "" else clean_text env.norm bRaw }
  | none => { date := "unknown", user := "unknown", message := clean_text env.norm e }

/-- `extract_message_data`; as in the source, `date_pattern` and
`date_format` are parameters that the function body never uses (the
extraction patterns are hard-coded). -/
def extract_message_data (env : PyEnv) (grouped : List String)
    (date_pattern : BPat) (date_format : String) : List ParsedRow :=
  grouped.map (extractEntry env)

/-! ## Enrichment -/

structure EnrichedRecord where
  date : PDateTime
  user : String
  message : String
  year : Nat
  month : String
  month_num : Nat
  day : Nat
  hour : Nat
  minute : Nat
  only_date : Nat × Nat × Nat
  day_name : String
  week_of_year : Nat
  day_of_year : Nat
  quarter : Nat
  time_period : String
  period : String
  message_length : Nat
  word_count : Nat
  is_media : Bool
  is_deleted : Bool
  url_count : Nat
  has_url : Bool
  emoji_count : Nat
  has_emoji : Bool
  is_weekend : Bool
  is_business_hours : Bool
deriving DecidableEq, Repr

/-- The user-column pass `fillna` + `apply(lambda x: clean_text(str(x)) if x
else 'system_notification')`. -/
def userClean1 (env : PyEnv) (u : String) : String :=
  if u = "" then "system_notification" else clean_text env.norm u

/-- The message-column pass `fillna('')` + `apply(lambda x:
clean_text(str(x)) if x else '')`. -/
def msgClean1 (env : PyEnv) (m : String) : String :=
  if m = "" then "" else clean_text env.norm m

/-- Per-record part of `enhance_dataframe` after date resolution: all
derived columns, in source semantics.  The final cleaning pass over the
string columns `user`, `message`, `month`, `day_name`, `time_period` is
folded into the corresponding fields; the metadata columns are computed,
as in the source, from the message value before that final pass. -/
def enrichRecord (env : PyEnv) (dt : PDateTime) (u m : String) : EnrichedRecord :=
  let u1 := userClean1 env u
  let m1 := msgClean1 env m
  { date := dt
    user := clean_text env.norm u1
    message := clean_text env.norm m1
    year := dt.year
    month := clean_text env.norm (monthName dt.month)
    month_num := dt.month
    day := dt.day
    hour := dt.hour
    minute := dt.minute
    only_date := (dt.year, dt.month, dt.day)
    day_name := clean_text env.norm (dayNameOf (pyDayOfWeek dt))
    week_of_year := isoWeekOf dt
    day_of_year := dayOfYear dt
    quarter := (dt.month + 2) / 3
    time_period := clean_text env.norm (get_time_period dt.hour)
    period := periodLabel dt.hour
    message_length := m1.length
    word_count := wordCount m1
    is_media := strContains m1 "<Media omitted>"
    is_deleted := strContains m1 "This message was deleted"
    url_count := urlCount m1
    has_url := decide (0 < urlCount m1)
    emoji_count := env.countEmojis m1
    has_emoji := decide (0 < env.countEmojis m1)
    is_weekend := pyDayOfWeek dt = 5 || pyDayOfWeek dt = 6
    is_business_hours := decide (9 ≤ dt.hour ∧ dt.hour ≤ 17) }

/-- Comparison used by `sort_values('date')`: by timestamp key. -/
def rowLe (a b : PDateTime × String × String) : Prop := dtKey a.1 ≤ dtKey b.1

instance : DecidableRel rowLe := fun a b => Nat.decLe (dtKey a.1) (dtKey b.1)

instance : IsTotal (PDateTime × String × String) rowLe :=
  ⟨fun a b => Nat.le_total (dtKey a.1) (dtKey b.1)⟩

instance : IsTrans (PDateTime × String × String) rowLe :=
  ⟨fun _ _ _ => Nat.le_trans⟩

/-- `enhance_dataframe`: drop sentinel rows, resolve dates (dropping
failures), sort by timestamp, enrich.  `sort_values('date')` guarantees
only a sorted permutation (its default `kind='quicksort'` is not stable);
the executable model uses a sort satisfying that contract. -/
def enhance_dataframe (env : PyEnv) (rows : List ParsedRow) : List EnrichedRecord :=
  if rows.isEmpty then [] else
  let rows1 := rows.filter (fun r => r.date != "unknown")
  if rows1.isEmpty then [] else
  let rows2 := rows1.filterMap
    (fun r => (parse_date_flexible env r.date).map (fun dt => (dt, r.user, r.message)))
  if rows2.isEmpty then [] else
  let sorted := List.insertionSort rowLe rows2
  sorted.map (fun t => enrichRecord env t.1 t.2.1 t.2.2)

/-! ## The top-level pipeline -/

/-- Line normalisation loop of `preprocess`: clean each raw line, keep it
when it is non-empty and non-empty after stripping. -/
def normalizeLines (env : PyEnv) (raw : List String) : List String :=
  raw.filterMap (fun line =>
    let c := clean_text env.norm line
    if c ≠ "" ∧ (⟨pyStripL c.data⟩ : String) ≠ "" then some c else none)

/-- `preprocess` after the input has been decoded into lines. -/
def preprocessLines (env : PyEnv) (raw : List String) : List EnrichedRecord :=
  if raw.isEmpty then [] else
  let normalized := normalizeLines env raw
  if normalized.isEmpty then [] else
  let spec := detect_date_format normalized
  let grouped := group_messages normalized spec.1
  if grouped.isEmpty then [] else
  let data := extract_message_data env grouped spec.1 spec.2
  if data.isEmpty then [] else
  enhance_dataframe env data

/-- Input states of the top-level `preprocess`: decoded content (the
encoding fallback chain never fails), a missing file (handled by the inner
`except FileNotFoundError`), or a byte-level read failure such as
`PermissionError` (propagates to the outer `except Exception`). -/
inductive PInput where
  | content (lines : List String)
  | fileNotFound (path : String)
  | unreadable (msg : String)

/-- Body of the `try:` block of `preprocess`. -/
def preprocessBody (env : PyEnv) : PInput → Except String (List EnrichedRecord)
  | .content ls => .ok (preprocessLines env ls)
  | .fileNotFound _ => .ok []
  | .unreadable msg => .error msg

/-- `preprocess` with its outer `except Exception: return pd.DataFrame()`. -/
def preprocess (env : PyEnv) (i : PInput) : List EnrichedRecord :=
  match preprocessBody env i with
  | .ok d => d
  | .error _ => []

/-! ## Validation -/

/-- In-place re-cleaning of the textual columns whose percent-encoding
probe failed, one flag per object-typed column. -/
def validateClean (env : PyEnv) (userBad msgBad monthBad dayNameBad tpBad periodBad : Bool)
    (r : EnrichedRecord) : EnrichedRecord :=
  { r with
    user := if userBad then clean_text env.norm r.user else r.user
    message := if msgBad then clean_text env.norm r.message else r.message
    month := if monthBad then clean_text env.norm r.month else r.month
    day_name := if dayNameBad then clean_text env.norm r.day_name else r.day_name
    time_period := if tpBad then clean_text env.norm r.time_period else r.time_period
    period := if periodBad then clean_text env.norm r.period else r.period }

/-- `validate_dataframe`.  The typed model always has the required columns
and valid timestamps, so the missing-column and all-dates-invalid early
returns are unreachable; the percent-encodability probe is `env.quoteOk`
over the first ten values of each textual column, and a failing column is
re-cleaned in place.  The object-typed `only_date` column cannot be
re-cleaned in the typed model (doing so would change its type); that path
is unreachable for any `quoteOk` that accepts plain ASCII date strings. -/
def validate_dataframe (env : PyEnv) (recs : List EnrichedRecord) :
    List EnrichedRecord × List String :=
  if recs.isEmpty then (recs, []) else
  let userBad := ((recs.map (fun r => r.user)).take 10).any (fun v => !env.quoteOk v)
  let msgBad := ((recs.map (fun r => r.message)).take 10).any (fun v => !env.quoteOk v)
  let monthBad := ((recs.map (fun r => r.month)).take 10).any (fun v => !env.quoteOk v)
  let dayNameBad := ((recs.map (fun r => r.day_name)).take 10).any (fun v => !env.quoteOk v)
  let tpBad := ((recs.map (fun r => r.time_period)).take 10).any (fun v => !env.quoteOk v)
  let periodBad := ((recs.map (fun r => r.period)).take 10).any (fun v => !env.quoteOk v)
  let encIssues :=
    (if userBad then ["Column user contains characters that may cause URI errors"] else []) ++
    (if msgBad then ["Column message contains characters that may cause URI errors"] else []) ++
    (if monthBad then ["Column month contains characters that may cause URI errors"] else []) ++
    (if dayNameBad then ["Column day_name contains characters that may cause URI errors"] else []) ++
    (if tpBad then ["Column time_period contains characters that may cause URI errors"] else []) ++
    (if periodBad then ["Column period contains characters that may cause URI errors"] else [])
  let recs2 := recs.map (validateClean env userBad msgBad monthBad dayNameBad tpBad periodBad)
  let total := recs.length
  let valid_dates := total
  let valid_users := total
  let ratioIssues :=
    (if valid_dates * 5 < total * 4 then ["Low date validity"] else []) ++
    (if valid_users * 5 < total * 4 then ["Low user validity"] else [])
  let secs := recs.map (fun r => epochSeconds r.date)
  let rangeIssues :=
    match secs.max?, secs.min? with
    | some mx, some mn =>
      if 3650 < (mx - mn) / 86400 then ["Unusually large date range"] else []
    | _, _ => []
  (recs2, encIssues ++ ratioIssues ++ rangeIssues)

/-! ## Specification-side notions and concrete instances -/

/-- The properties of `unicodedata.normalize('NFKC', ·)` that the
idempotence arguments rely on: it maps the empty string to itself, its
image is closed under stripping surrounding whitespace (normalisation
forms are closed under substrings), and it preserves freedom from the
control and artifact characters that an earlier cleaning pass removed. -/
def ctrlFreeS (s : String) : Prop := ∀ c ∈ s.data, isCtrlChar c = false

def artFreeS (s : String) : Prop := ∀ c ∈ s.data, artifactStep c = some c

def pyStripS (s : String) : String := ⟨pyStripL s.data⟩

def NormOk (norm : String → String) : Prop :=
  norm "" = "" ∧
  (∀ s, norm (pyStripS (norm s)) = pyStripS (norm s)) ∧
  (∀ s, ctrlFreeS s → ctrlFreeS (norm s)) ∧
  (∀ s, artFreeS s → artFreeS (norm s))

/-- Sort key comparison on enriched records. -/
def recLe (a b : EnrichedRecord) : Prop := dtKey a.date ≤ dtKey b.date

instance : DecidableRel recLe := fun a b => Nat.decLe (dtKey a.date) (dtKey b.date)

/-- Contract of `DataFrame.sort_values('date')` with its default
`kind='quicksort'`: the output is a permutation of the input, sorted
non-decreasing by the key — and nothing more (quicksort is documented as
not stable). -/
def pandasSortSpec (input output : List EnrichedRecord) : Prop :=
  output.Perm input ∧ output.Sorted recLe

/-- Stability: records with equal timestamps keep their input order. -/
def SortStable (input output : List EnrichedRecord) : Prop :=
  ∀ k : Nat, output.filter (fun r => dtKey r.date == k)
    = input.filter (fun r => dtKey r.date == k)

/-- Concrete environment used for evaluation: `norm` is the identity (NFKC
is the identity on every string occurring in the tests), the generic parser
accepts nothing, percent-encoding always succeeds, emoji count zero. -/
def env0 : PyEnv :=
  { norm := id, genericParse := fun _ => none, quoteOk := fun _ => true,
    countEmojis := fun _ => 0 }

def cdt : PDateTime := ⟨2024, 1, 1, 0, 2, 0⟩

def recA : EnrichedRecord := enrichRecord env0 cdt "alice" "x"

def recB : EnrichedRecord := enrichRecord env0 cdt "bob" "x"

/-! ## Helper lemmas -/

theorem containsSub_iff (l pat : List Char) : containsSub l pat = true ↔ pat <:+: l := by
  induction l with
  | nil =>
    simp only [containsSub, List.isEmpty_iff]
    exact (List.infix_nil).symm
  | cons c t ih =>
    simp only [containsSub, Bool.or_eq_true, List.isPrefixOf_iff_prefix, ih]
    exact (List.infix_cons_iff).symm

theorem detectAux_spec (cs : List (BPat × String)) (ls : List String) :
    (∃ c pre post, detectAux cs ls = some c ∧ cs = pre ++ c :: post ∧
      (∀ c2 ∈ pre, ∀ l ∈ ls, bmatch c2.1 l = false) ∧
      ∃ l ∈ ls, bmatch c.1 l = true) ∨
    (detectAux cs ls = none ∧ ∀ c ∈ cs, ∀ l ∈ ls, bmatch c.1 l = false) := by
  induction cs with
  | nil => exact Or.inr ⟨rfl, by simp⟩
  | cons c cs ih =>
    by_cases hc : ls.any (fun line => bmatch c.1 line) = true
    · obtain ⟨l, hl, hb⟩ := List.any_eq_true.mp hc
      exact Or.inl ⟨c, [], cs, by simp [detectAux, hc], rfl, by simp, l, hl, hb⟩
    · have hnall : ∀ l ∈ ls, bmatch c.1 l = false := by
        intro l hl
        cases hbl : bmatch c.1 l with
        | false => rfl
        | true => exact absurd (List.any_eq_true.mpr ⟨l, hl, hbl⟩) hc
      have hstep : detectAux (c :: cs) ls = detectAux cs ls := by
        simp [detectAux, hc]
      rcases ih with ⟨c2, pre, post, hsome, hcs, hpre, hex⟩ | ⟨hnone, hall⟩
      · refine Or.inl ⟨c2, c :: pre, post, hstep ▸ hsome, by rw [hcs]; rfl, ?_, hex⟩
        intro c3 hc3 l hl
        rcases List.mem_cons.mp hc3 with rfl | h3
        · exact hnall l hl
        · exact hpre c3 h3 l hl
      · refine Or.inr ⟨hstep ▸ hnone, ?_⟩
        intro c3 hc3 l hl
        rcases List.mem_cons.mp hc3 with rfl | h3
        · exact hnall l hl
        · exact hall c3 h3 l hl

theorem tryFormats_eq_findSome (fs : List String) (s : String) :
    tryFormats fs s = fs.findSome? (fun f => pyStrptime f s) := by
  induction fs with
  | nil => rfl
  | cons f fs ih =>
    cases h : pyStrptime f s <;> simp [tryFormats, List.findSome?_cons, h, ih]

theorem parseAttempts_isPre (fs : List String) (s : String) :
    parseAttempts fs s <+: fs := by
  induction fs with
  | nil => exact ⟨[], rfl⟩
  | cons f fs ih =>
    cases h : pyStrptime f s with
    | none =>
      obtain ⟨t, ht⟩ := ih
      exact ⟨t, by simp only [parseAttempts, h]; rw [List.cons_append, ht]⟩
    | some dt => exact ⟨fs, by simp [parseAttempts, h]⟩

theorem extractEntry_sentinel (env : PyEnv) (e : String)
    (h : tryExtract (clean_text env.norm e) = none) :
    extractEntry env e =
      { date := "unknown", user := "unknown",
        message := clean_text env.norm (clean_text env.norm e) } := by
  simp only [extractEntry, h]

theorem enhance_dataframe_all_unknown (env : PyEnv) (rows : List ParsedRow)
    (h : ∀ r ∈ rows, r.date = "unknown") : enhance_dataframe env rows = [] := by
  by_cases h0 : rows.isEmpty
  · simp [enhance_dataframe, h0]
  · have h1 : rows.filter (fun r => r.date != "unknown") = [] := by
      rw [List.filter_eq_nil_iff]
      intro r hr
      simp [h r hr]
    simp [enhance_dataframe, h0, h1]

theorem enhance_dataframe_all_dropped (env : PyEnv) (rows : List ParsedRow)
    (h : ∀ r ∈ rows, r.date = "unknown" ∨ parse_date_flexible env r.date = none) :
    enhance_dataframe env rows = [] := by
  by_cases h0 : rows.isEmpty
  · simp [enhance_dataframe, h0]
  · by_cases h1 : (rows.filter (fun r => r.date != "unknown")).isEmpty
    · rw [List.isEmpty_iff] at h1
      simp [enhance_dataframe, h0, h1]
    · have h2 : (rows.filter (fun r => r.date != "unknown")).filterMap
          (fun r => (parse_date_flexible env r.date).map
            (fun dt => (dt, r.user, r.message))) = [] := by
        rw [List.filterMap_eq_nil_iff]
        intro r hr
        rw [List.mem_filter] at hr
        rcases h r hr.1 with hd | hp
        · have := hr.2
          rw [hd] at this
          simp at this
        · rw [hp]
          rfl
      simp [enhance_dataframe, h0, h2]

theorem enhance_dataframe_mem (env : PyEnv) (rows : List ParsedRow)
    (rec : EnrichedRecord) (h : rec ∈ enhance_dataframe env rows) :
    ∃ row ∈ rows, row.date ≠ "unknown" ∧
      parse_date_flexible env row.date = some rec.date := by
  simp only [enhance_dataframe] at h
  split at h
  · exact absurd h (by simp)
  · split at h
    · exact absurd h (by simp)
    · split at h
      · exact absurd h (by simp)
      · obtain ⟨t, ht, hrec⟩ := List.mem_map.mp h
        have ht2 := (List.perm_insertionSort rowLe _).mem_iff.mp ht
        obtain ⟨row, hrow, hsome⟩ := List.mem_filterMap.mp ht2
        rw [List.mem_filter] at hrow
        refine ⟨row, hrow.1, by simpa using hrow.2, ?_⟩
        cases hp : parse_date_flexible env row.date with
        | none => rw [hp] at hsome; simp at hsome
        | some dt =>
          rw [hp] at hsome
          simp only [Option.map] at hsome
          injection hsome with hsome
          subst hsome
          rw [← hrec]
          rfl

/-! ## Claim theorems -/

/-- Claim C5: `time_period` is exactly `Morning` for hour in [5,12),
`Afternoon` for [12,17), `Evening` for [17,21), and `Night` otherwise,
including at the boundary hours 5, 12, 17 and 21. -/
theorem C5_time_period_buckets (h : Nat) :
    (get_time_period h = "Morning" ↔ 5 ≤ h ∧ h < 12) ∧
    (get_time_period h = "Afternoon" ↔ 12 ≤ h ∧ h < 17) ∧
    (get_time_period h = "Evening" ↔ 17 ≤ h ∧ h < 21) ∧
    (get_time_period h = "Night" ↔ h < 5 ∨ 21 ≤ h) := by
  unfold get_time_period
  split_ifs with h1 h2 h3
  · exact ⟨iff_of_true rfl h1, iff_of_false (by decide) (by omega),
      iff_of_false (by decide) (by omega), iff_of_false (by decide) (by omega)⟩
  · exact ⟨iff_of_false (by decide) h1, iff_of_true rfl h2,
      iff_of_false (by decide) (by omega), iff_of_false (by decide) (by omega)⟩
  · exact ⟨iff_of_false (by decide) h1, iff_of_false (by decide) h2,
      iff_of_true rfl h3, iff_of_false (by decide) (by omega)⟩
  · exact ⟨iff_of_false (by decide) h1, iff_of_false (by decide) h2,
      iff_of_false (by decide) h3, iff_of_true rfl (by omega)⟩

/-- Claim C6: format detection inspects at most the first 20 lines and
returns the first candidate pair (in enumerated order) whose boundary
pattern matches some scanned line; with no match it returns the fixed
default pair and never fails. -/
theorem C6_detect_first_match (lines : List String) :
    detect_date_format lines = detect_date_format (lines.take 20) ∧
    ((∃ pre post, date_candidates = pre ++ detect_date_format lines :: post ∧
        (∀ c ∈ pre, ∀ l ∈ lines.take 20, bmatch c.1 l = false) ∧
        ∃ l ∈ lines.take 20, bmatch (detect_date_format lines).1 l = true) ∨
      ((∀ c ∈ date_candidates, ∀ l ∈ lines.take 20, bmatch c.1 l = false) ∧
        detect_date_format lines = default_candidate)) := by
  constructor
  · unfold detect_date_format
    rw [List.take_take]
    simp
  · rcases detectAux_spec date_candidates (lines.take 20) with
      ⟨c, pre, post, hsome, hcs, hpre, hex⟩ | ⟨hnone, hall⟩
    · have hd : detect_date_format lines = c := by
        unfold detect_date_format
        rw [hsome]
        rfl
      rw [hd]
      exact Or.inl ⟨pre, post, hcs, hpre, hex⟩
    · have hd : detect_date_format lines = default_candidate := by
        unfold detect_date_format
        rw [hnone]
        rfl
      exact Or.inr ⟨hall, hd⟩

/-- Claim C2 counterexample: a record whose body properly contains the
media-omitted marker still gets `is_media = true`, so the claimed
"exactly equals" reading is false on the code. -/
theorem C2_counterexample :
    (preprocessLines env0 ["1/1/24, 12:02 AM - Charlie: see <Media omitted> here"]).map
        (fun r => (r.is_media, r.message))
      = [(true, "see <Media omitted> here")] ∧
    ("see <Media omitted> here" : String) ≠ "<Media omitted>" := by
  exact ⟨by decide, by decide⟩

/-- Claim C2 (amended): `is_media` is true iff the cleaned body contains
the media-omitted marker as a substring, and `is_deleted` iff it contains
the deletion marker as a substring. -/
theorem C2_media_deleted_contains (env : PyEnv) (dt : PDateTime) (u m : String) :
    ((enrichRecord env dt u m).is_media = true ↔
      "<Media omitted>".data <:+: (msgClean1 env m).data) ∧
    ((enrichRecord env dt u m).is_deleted = true ↔
      "This message was deleted".data <:+: (msgClean1 env m).data) :=
  ⟨containsSub_iff (msgClean1 env m).data "<Media omitted>".data,
   containsSub_iff (msgClean1 env m).data "This message was deleted".data⟩

/-- Claim C3 counterexample: the sentinel row emitted for a structurally
unmatched entry carries the user string `"unknown"`, not `None` (which
would later resolve to `"system_notification"`). -/
theorem C3_counterexample :
    (extract_message_data env0 ["hello world"] BPat.mdY2ampm "%m/%d/%y, %I:%M %p").map
        (fun r => r.user) = ["unknown"] ∧
    ("unknown" : String) ≠ "system_notification" := by
  exact ⟨by decide, by decide⟩

/-- Claim C3 (amended): an entry matching no extraction pattern yields the
sentinel row `(date "unknown", user "unknown", body the cleaned text)`,
and every record of the final Dataset stems from a row whose date text is
not the sentinel (sentinel units are dropped before date parsing). -/
theorem C3_sentinel_row (env : PyEnv) (entries : List String) (pat : BPat)
    (fmt : String) :
    ((∀ e ∈ entries, tryExtract (clean_text env.norm e) = none) →
      extract_message_data env entries pat fmt =
        entries.map (fun e =>
          { date := "unknown", user := "unknown",
            message := clean_text env.norm (clean_text env.norm e) }) ∧
      enhance_dataframe env (extract_message_data env entries pat fmt) = []) ∧
    (∀ rows rec, rec ∈ enhance_dataframe env rows →
      ∃ row ∈ rows, row.date ≠ "unknown" ∧
        parse_date_flexible env row.date = some rec.date) := by
  constructor
  · intro h
    have hmap : extract_message_data env entries pat fmt =
        entries.map (fun e =>
          ({ date := "unknown", user := "unknown",
             message := clean_text env.norm (clean_text env.norm e) } : ParsedRow)) := by
      unfold extract_message_data
      exact List.map_congr_left (fun e he => extractEntry_sentinel env e (h e he))
    refine ⟨hmap, ?_⟩
    rw [hmap]
    refine enhance_dataframe_all_unknown env _ (fun r hr => ?_)
    obtain ⟨e, _, hre⟩ := List.mem_map.mp hr
    rw [← hre]
  · exact fun rows rec => enhance_dataframe_mem env rows rec

/-- Claim C3 witness: concrete instantiation on the unmatched entry
`"hello world"`, discharging the mismatch hypothesis by evaluation. -/
theorem C3_sentinel_row_witness :
    extract_message_data env0 ["hello world"] BPat.mdY2ampm "%m/%d/%y, %I:%M %p" =
      [{ date := "unknown", user := "unknown", message := "hello world" }] ∧
    enhance_dataframe env0
      (extract_message_data env0 ["hello world"] BPat.mdY2ampm "%m/%d/%y, %I:%M %p") = [] := by
  have h := (C3_sentinel_row env0 ["hello world"] BPat.mdY2ampm
    "%m/%d/%y, %I:%M %p").1 (by decide)
  exact ⟨by rw [h.1]; decide, h.2⟩

/-- Claim C1 counterexample: on an ISO-formatted input the detector
designates the ISO timestamp format, yet date resolution's first attempted
format is the month-first two-digit-year 12-hour format — the designated
format is not tried first. -/
theorem C1_counterexample :
    detect_date_format ["2023-01-02, 10:30:00 - A: hi"] = (BPat.iso, "%Y-%m-%d, %H:%M:%S") ∧
    (extract_message_data env0 ["2023-01-02, 10:30:00 - A: hi"] BPat.iso
        "%Y-%m-%d, %H:%M:%S").map (fun r => r.date) = ["2023-01-02, 10:30:00"] ∧
    (parseAttempts flexibleFormats "2023-01-02, 10:30:00").head? =
      some "%m/%d/%y, %I:%M %p" ∧
    ("%m/%d/%y, %I:%M %p" : String) ≠ "%Y-%m-%d, %H:%M:%S" := by
  exact ⟨by decide, by decide, by decide, by decide⟩

/-- Claim C1 (amended): date resolution ignores the detected FormatSpec —
for every date text it attempts the same fixed ordered list of eight
formats and falls back to the generic parser only when all eight fail; the
first attempted format is always the month-first two-digit-year 12-hour
format, and the attempt sequence is an order-preserving prefix of the
fixed list. -/
theorem C1_fixed_format_order (env : PyEnv) (s : String) :
    parse_date_flexible env s =
      (match flexibleFormats.findSome? (fun f => pyStrptime f s) with
       | some dt => some dt
       | none => env.genericParse s) ∧
    (parseAttempts flexibleFormats s).head? = some "%m/%d/%y, %I:%M %p" ∧
    parseAttempts flexibleFormats s <+: flexibleFormats := by
  refine ⟨?_, ?_, parseAttempts_isPre flexibleFormats s⟩
  · unfold parse_date_flexible
    rw [tryFormats_eq_findSome]
  · cases h : pyStrptime "%m/%d/%y, %I:%M %p" s <;>
      simp [flexibleFormats, parseAttempts, h]

/-- Claim C10: the top-level `preprocess` is total over all modelled input
states; every non-content input — a missing file, or any byte-level read
failure caught by the outer exception handler — yields the empty Dataset
rather than an error. -/
theorem C10_never_raises (env : PyEnv) (i : PInput) :
    (∃ ls, i = PInput.content ls ∧ preprocess env i = preprocessLines env ls) ∨
    preprocess env i = [] := by
  cases i with
  | content ls => exact Or.inl ⟨ls, rfl, rfl⟩
  | fileNotFound p => exact Or.inr rfl
  | unreadable m => exact Or.inr rfl

/-! ## Lemmas for detection membership and grouping -/

theorem detectAux_mem {cs : List (BPat × String)} {ls : List String}
    {c : BPat × String} (h : detectAux cs ls = some c) : c ∈ cs := by
  induction cs with
  | nil => exact absurd h (by simp [detectAux])
  | cons c2 cs ih =>
    by_cases hc : ls.any (fun line => bmatch c2.1 line) = true
    · simp only [detectAux, hc, if_true, Option.some_inj] at h
      rw [← h]
      exact List.mem_cons_self c2 cs
    · simp only [detectAux, hc, if_false] at h
      exact List.mem_cons_of_mem c2 (ih h)

theorem detect_mem (lines : List String) :
    detect_date_format lines ∈ date_candidates := by
  unfold detect_date_format
  cases h : detectAux date_candidates (lines.take 20) with
  | none =>
    simp only [Option.getD_none]
    decide
  | some c =>
    simp only [Option.getD_some]
    exact detectAux_mem h

theorem groupGo_all_nomatch (p : BPat) (lines : List String)
    (h : ∀ l ∈ lines, bmatch p l = false) : groupGo p lines "" = [] := by
  induction lines with
  | nil => simp [groupGo]
  | cons l ls ih =>
    have hl : bmatch p l = false := h l (by simp)
    simp only [groupGo, hl, Bool.false_eq_true, if_false, ne_eq, not_true_eq_false,
      if_neg (by simp : ¬("" : String) ≠ "")]
    exact ih (fun l2 hl2 => h l2 (by simp [hl2]))

/-- Claim C7: an input with no usable lines, an input in which no line
matches any boundary pattern, and an input in which every extracted record
is dropped during date resolution all yield the empty Dataset, without
raising. -/
theorem C7_empty_dataset (env : PyEnv) (raw : List String) :
    ((∀ l ∈ raw, clean_text env.norm l = "") → preprocessLines env raw = []) ∧
    ((∀ l ∈ normalizeLines env raw, ∀ c ∈ date_candidates, bmatch c.1 l = false) →
      preprocessLines env raw = []) ∧
    ((∀ r ∈ extract_message_data env
          (group_messages (normalizeLines env raw)
            (detect_date_format (normalizeLines env raw)).1)
          (detect_date_format (normalizeLines env raw)).1
          (detect_date_format (normalizeLines env raw)).2,
        r.date = "unknown" ∨ parse_date_flexible env r.date = none) →
      preprocessLines env raw = []) := by
  refine ⟨?_, ?_, ?_⟩
  · intro h
    by_cases hraw : raw.isEmpty
    · simp [preprocessLines, hraw]
    · have hn : normalizeLines env raw = [] := by
        unfold normalizeLines
        rw [List.filterMap_eq_nil_iff]
        intro l hl
        simp [h l hl]
      simp [preprocessLines, hraw, hn]
  · intro h
    by_cases hraw : raw.isEmpty
    · simp [preprocessLines, hraw]
    · by_cases hn : (normalizeLines env raw).isEmpty
      · simp [preprocessLines, hraw, hn]
      · have hg : group_messages (normalizeLines env raw)
            (detect_date_format (normalizeLines env raw)).1 = [] := by
          unfold group_messages
          exact groupGo_all_nomatch _ _
            (fun l hl => h l hl _ (detect_mem (normalizeLines env raw)))
        simp [preprocessLines, hraw, hn, hg]
  · intro h
    have he := enhance_dataframe_all_dropped env _ h
    simp only [preprocessLines]
    split
    · rfl
    · split
      · rfl
      · split
        · rfl
        · split
          · rfl
          · exact he

/-- Claim C7 witness: concrete empty-result runs — a blank line, an input
of continuation-shaped lines only, and a chat line whose extracted date
text resolves under no format. -/
theorem C7_empty_dataset_witness :
    preprocessLines env0 [""] = [] ∧
    preprocessLines env0 ["hello", "world"] = [] ∧
    preprocessLines env0 ["13/13/23, 10:30 PM - A: hi"] = [] :=
  ⟨(C7_empty_dataset env0 [""]).1 (by decide),
   (C7_empty_dataset env0 ["hello", "world"]).2.1 (by decide),
   (C7_empty_dataset env0 ["13/13/23, 10:30 PM - A: hi"]).2.2 (by decide)⟩

/-! ## Sortedness of the produced Dataset -/

theorem enhance_dataframe_sorted (env : PyEnv) (rows : List ParsedRow) :
    (enhance_dataframe env rows).Sorted recLe := by
  simp only [enhance_dataframe]
  split
  · exact List.sorted_nil
  · split
    · exact List.sorted_nil
    · split
      · exact List.sorted_nil
      · exact List.Pairwise.map _ (fun a b hab => hab)
          (List.sorted_insertionSort rowLe _)

/-- Claim C4 counterexample: the contract of `sort_values` with its default
quicksort — a sorted permutation of the input — admits an output that
reverses two records with equal timestamps, so stability is not
guaranteed. -/
theorem C4_counterexample :
    pandasSortSpec [recA, recB] [recB, recA] ∧
    ¬ SortStable [recA, recB] [recB, recA] := by
  refine ⟨⟨by decide, by decide⟩, ?_⟩
  intro hstable
  exact absurd (hstable (dtKey cdt)) (by decide)

/-- Claim C4 (amended): for every input the produced Dataset is sorted
non-decreasing by timestamp; the relative order of records with equal
timestamps is unspecified (the sort is pandas quicksort, which is not
stable). -/
theorem C4_sorted_nondecreasing (env : PyEnv) (i : PInput) :
    (preprocess env i).Sorted recLe := by
  cases i with
  | fileNotFound p => exact List.sorted_nil
  | unreadable msg => exact List.sorted_nil
  | content ls =>
    show (preprocessLines env ls).Sorted recLe
    simp only [preprocessLines]
    split
    · exact List.sorted_nil
    · split
      · exact List.sorted_nil
      · split
        · exact List.sorted_nil
        · split
          · exact List.sorted_nil
          · exact enhance_dataframe_sorted env _

/-! ## Validator frame conditions -/

theorem validateClean_frame (env : PyEnv) (b1 b2 b3 b4 b5 b6 : Bool)
    (r : EnrichedRecord) :
    (validateClean env b1 b2 b3 b4 b5 b6 r).date = r.date ∧
    ((validateClean env b1 b2 b3 b4 b5 b6 r).user = r.user ∨
      (validateClean env b1 b2 b3 b4 b5 b6 r).user = clean_text env.norm r.user) ∧
    ((validateClean env b1 b2 b3 b4 b5 b6 r).message = r.message ∨
      (validateClean env b1 b2 b3 b4 b5 b6 r).message = clean_text env.norm r.message) := by
  refine ⟨rfl, ?_, ?_⟩
  · cases b1
    · exact Or.inl rfl
    · exact Or.inr rfl
  · cases b2
    · exact Or.inl rfl
    · exact Or.inr rfl

/-- Claim C9: the validator is total (never raises in the model), never
changes which records exist — the output has the same length, every
record keeps its timestamp, and user and body are either untouched or
re-cleaned with `clean_text` (the only permitted mutation). -/
theorem C9_validator_frame (env : PyEnv) (recs : List EnrichedRecord) :
    (validate_dataframe env recs).1.length = recs.length ∧
    List.Forall₂ (fun a b =>
        b.date = a.date ∧ (b.user = a.user ∨ b.user = clean_text env.norm a.user) ∧
          (b.message = a.message ∨ b.message = clean_text env.norm a.message))
      recs (validate_dataframe env recs).1 := by
  by_cases h0 : recs.isEmpty
  · rw [List.isEmpty_iff] at h0
    subst h0
    exact ⟨rfl, List.Forall₂.nil⟩
  · simp only [validate_dataframe, if_neg h0]
    constructor
    · exact List.length_map _ _
    · rw [List.forall₂_map_right_iff]
      exact List.forall₂_same.mpr
        (fun r hr => validateClean_frame env _ _ _ _ _ _ r)

/-! ## Idempotence of the cleaning pass -/

theorem dropWhile_dropWhile (p : Char → Bool) (l : List Char) :
    (l.dropWhile p).dropWhile p = l.dropWhile p := by
  induction l with
  | nil => rfl
  | cons c t ih =>
    by_cases hc : p c
    · simp [List.dropWhile_cons, hc, ih]
    · simp [List.dropWhile_cons, hc]

theorem dropWhile_head_false (p : Char → Bool) (l : List Char) {a : Char}
    {t : List Char} (h : l.dropWhile p = a :: t) : p a = false := by
  induction l with
  | nil => exact absurd h (by simp)
  | cons c r ih =>
    by_cases hc : p c
    · rw [List.dropWhile_cons, if_pos hc] at h
      exact ih h
    · rw [List.dropWhile_cons, if_neg hc] at h
      injection h with h1 _
      rw [← h1]
      exact Bool.eq_false_iff.mpr hc

theorem dropWhile_append_single (p : Char → Bool) (xs : List Char) (a : Char) :
    (xs ++ [a]).dropWhile p = [] ∨
    ∃ w, (xs ++ [a]).dropWhile p = w ++ [a] := by
  induction xs with
  | nil =>
    by_cases hp : p a
    · exact Or.inl (by simp [List.dropWhile_cons, hp])
    · exact Or.inr ⟨[], by simp [List.dropWhile_cons, hp]⟩
  | cons x xs ih =>
    by_cases hp : p x
    · simpa [List.cons_append, List.dropWhile_cons, hp] using ih
    · exact Or.inr ⟨x :: xs, by simp [List.cons_append, List.dropWhile_cons, hp]⟩

theorem trimLeftL_trimRightL (l : List Char) :
    trimLeftL (trimRightL (trimLeftL l)) = trimRightL (trimLeftL l) := by
  cases hu : trimLeftL l with
  | nil => rfl
  | cons a t =>
    have ha : pyIsSpaceChar a = false := dropWhile_head_false pyIsSpaceChar l hu
    rcases dropWhile_append_single pyIsSpaceChar t.reverse a with h1 | ⟨w, hw⟩
    · unfold trimRightL
      rw [List.reverse_cons, h1]
      rfl
    · unfold trimRightL
      rw [List.reverse_cons, hw, List.reverse_append]
      show trimLeftL (a :: w.reverse) = a :: w.reverse
      unfold trimLeftL
      rw [List.dropWhile_cons, if_neg (by simp [ha])]

theorem pyStripL_idem (l : List Char) : pyStripL (pyStripL l) = pyStripL l := by
  unfold pyStripL
  rw [trimLeftL_trimRightL]
  unfold trimRightL
  rw [List.reverse_reverse, dropWhile_dropWhile]

theorem mem_trimRightL {a : Char} {l : List Char} (h : a ∈ trimRightL l) : a ∈ l := by
  unfold trimRightL at h
  rw [List.mem_reverse] at h
  exact List.mem_reverse.mp ((List.dropWhile_sublist _).mem h)

theorem mem_pyStripL {a : Char} {l : List Char} (h : a ∈ pyStripL l) : a ∈ l := by
  unfold pyStripL at h
  exact (List.dropWhile_sublist _).mem (mem_trimRightL h)

theorem stripControlL_ctrlFree (l : List Char) :
    ∀ c ∈ stripControlL l, isCtrlChar c = false := by
  intro c hc
  unfold stripControlL at hc
  rw [List.mem_filter] at hc
  simpa using hc.2

theorem artifactL_artFree (l : List Char) :
    ∀ c ∈ artifactL l, artifactStep c = some c := by
  intro c hc
  obtain ⟨a, _, ha⟩ := List.mem_filterMap.mp hc
  simp only [artifactStep] at ha
  by_cases h1 : a = '\u202F'
  · rw [if_pos h1] at ha
    injection ha with ha
    rw [← ha]
    decide
  · rw [if_neg h1] at ha
    by_cases h2 : a = '\u200E' ∨ a = '\u200F'
    · rw [if_pos h2] at ha
      exact absurd ha (by simp)
    · rw [if_neg h2] at ha
      injection ha with ha
      subst ha
      simp only [artifactStep]
      rw [if_neg h1, if_neg h2]

theorem artifactL_ctrlFree {l : List Char} (hl : ∀ c ∈ l, isCtrlChar c = false) :
    ∀ c ∈ artifactL l, isCtrlChar c = false := by
  intro c hc
  obtain ⟨a, ha_mem, ha⟩ := List.mem_filterMap.mp hc
  simp only [artifactStep] at ha
  by_cases h1 : a = '\u202F'
  · rw [if_pos h1] at ha
    injection ha with ha
    rw [← ha]
    decide
  · rw [if_neg h1] at ha
    by_cases h2 : a = '\u200E' ∨ a = '\u200F'
    · rw [if_pos h2] at ha
      exact absurd ha (by simp)
    · rw [if_neg h2] at ha
      injection ha with ha
      rw [← ha]
      exact hl a ha_mem

theorem filterMap_id_of (f : Char → Option Char) (l : List Char)
    (h : ∀ a ∈ l, f a = some a) : l.filterMap f = l := by
  induction l with
  | nil => rfl
  | cons a t ih =>
    simp only [List.filterMap_cons, h a (List.mem_cons_self a t),
      ih (fun b hb => h b (List.mem_cons_of_mem a hb))]

theorem clean_text_fix (norm : String → String) (hN : NormOk norm) (s : String) :
    clean_text norm (clean_text norm s) = clean_text norm s := by
  obtain ⟨h0, hfix, hctrl, hart⟩ := hN
  have hzc : ctrlFreeS (⟨artifactL (stripControlL s.data)⟩ : String) :=
    fun c hc => artifactL_ctrlFree (stripControlL_ctrlFree s.data) c hc
  have hza : artFreeS (⟨artifactL (stripControlL s.data)⟩ : String) :=
    fun c hc => artifactL_artFree (stripControlL s.data) c hc
  have hres : clean_text norm s = pyStripS (norm ⟨artifactL (stripControlL s.data)⟩) := rfl
  have hwc : ctrlFreeS (norm ⟨artifactL (stripControlL s.data)⟩) := hctrl _ hzc
  have hwa : artFreeS (norm ⟨artifactL (stripControlL s.data)⟩) := hart _ hza
  have hc1c : ctrlFreeS (clean_text norm s) := by
    rw [hres]
    intro c hc
    exact hwc c (mem_pyStripL hc)
  have hc1a : artFreeS (clean_text norm s) := by
    rw [hres]
    intro c hc
    exact hwa c (mem_pyStripL hc)
  have hA : stripControlL ((clean_text norm s).data) = (clean_text norm s).data :=
    List.filter_eq_self.mpr (fun c hc => by simp [hc1c c hc])
  have hB : artifactL ((clean_text norm s).data) = (clean_text norm s).data :=
    filterMap_id_of _ _ (fun c hc => hc1a c hc)
  show pyStripS (norm ⟨artifactL (stripControlL (clean_text norm s).data)⟩)
      = clean_text norm s
  rw [hA, hB]
  show pyStripS (norm (clean_text norm s)) = clean_text norm s
  rw [hres, hfix ⟨artifactL (stripControlL s.data)⟩]
  show (⟨pyStripL (pyStripL (norm ⟨artifactL (stripControlL s.data)⟩).data)⟩ : String) = _
  rw [pyStripL_idem]
  rfl

theorem clean_text_empty (norm : String → String) (h0 : norm "" = "") :
    clean_text norm "" = "" := by
  show pyStripS (norm ⟨artifactL (stripControlL "".data)⟩) = ""
  have he : (⟨artifactL (stripControlL "".data)⟩ : String) = "" := rfl
  rw [he, h0]
  rfl

theorem msgClean1_fix (env : PyEnv) (hN : NormOk env.norm) (m : String) :
    clean_text env.norm (msgClean1 env m) = msgClean1 env m := by
  unfold msgClean1
  by_cases hm : m = ""
  · rw [if_pos hm]
    exact clean_text_empty env.norm hN.1
  · rw [if_neg hm]
    exact clean_text_fix env.norm hN m

theorem msgClean1_idem (env : PyEnv) (hN : NormOk env.norm) (m : String) :
    msgClean1 env (msgClean1 env m) = msgClean1 env m := by
  by_cases hm : m = ""
  · rw [hm]
    have h1 : msgClean1 env "" = "" := by simp [msgClean1]
    rw [h1, h1]
  · have h1 : msgClean1 env m = clean_text env.norm m := by simp [msgClean1, hm]
    rw [h1]
    by_cases h2 : clean_text env.norm m = ""
    · rw [h2]
      simp [msgClean1]
    · simp only [msgClean1, if_neg h2]
      exact clean_text_fix env.norm hN m

/-- Claim C8: enrichment is idempotent — re-running the enrichment stage on
the base fields (timestamp, user, body) of an enriched record reproduces
every derived field (and the timestamp and cleaned body) unchanged,
assuming the standard properties of Unicode NFKC normalisation
(`NormOk`). -/
theorem C8_enrichment_idempotent (env : PyEnv) (hN : NormOk env.norm)
    (dt : PDateTime) (u m : String) :
    let r := enrichRecord env dt u m
    let r2 := enrichRecord env r.date r.user r.message
    r2.date = r.date ∧ r2.message = r.message ∧
    r2.year = r.year ∧ r2.month = r.month ∧ r2.month_num = r.month_num ∧
    r2.day = r.day ∧ r2.hour = r.hour ∧ r2.minute = r.minute ∧
    r2.only_date = r.only_date ∧ r2.day_name = r.day_name ∧
    r2.week_of_year = r.week_of_year ∧ r2.day_of_year = r.day_of_year ∧
    r2.quarter = r.quarter ∧ r2.time_period = r.time_period ∧
    r2.period = r.period ∧ r2.message_length = r.message_length ∧
    r2.word_count = r.word_count ∧ r2.is_media = r.is_media ∧
    r2.is_deleted = r.is_deleted ∧ r2.url_count = r.url_count ∧
    r2.has_url = r.has_url ∧ r2.emoji_count = r.emoji_count ∧
    r2.has_emoji = r.has_emoji ∧ r2.is_weekend = r.is_weekend ∧
    r2.is_business_hours = r.is_business_hours := by
  have hm1 : (enrichRecord env dt u m).message = msgClean1 env m :=
    msgClean1_fix env hN m
  have hkey : msgClean1 env (enrichRecord env dt u m).message = msgClean1 env m := by
    rw [hm1]
    exact msgClean1_idem env hN m
  exact ⟨rfl, congrArg (clean_text env.norm) hkey, rfl, rfl, rfl, rfl, rfl, rfl,
    rfl, rfl, rfl, rfl, rfl, rfl, rfl,
    congrArg String.length hkey,
    congrArg wordCount hkey,
    congrArg (fun x => strContains x "<Media omitted>") hkey,
    congrArg (fun x => strContains x "This message was deleted") hkey,
    congrArg urlCount hkey,
    congrArg (fun x => decide (0 < urlCount x)) hkey,
    congrArg env.countEmojis hkey,
    congrArg (fun x => decide (0 < env.countEmojis x)) hkey,
    rfl, rfl⟩

/-- Claim C8 witness: concrete instantiation with the identity
normalisation (which satisfies `NormOk`) on a concrete record. -/
theorem C8_enrichment_idempotent_witness :
    let r := enrichRecord env0 cdt "alice" "hi there"
    let r2 := enrichRecord env0 r.date r.user r.message
    r2.date = r.date ∧ r2.message = r.message ∧
    r2.year = r.year ∧ r2.month = r.month ∧ r2.month_num = r.month_num ∧
    r2.day = r.day ∧ r2.hour = r.hour ∧ r2.minute = r.minute ∧
    r2.only_date = r.only_date ∧ r2.day_name = r.day_name ∧
    r2.week_of_year = r.week_of_year ∧ r2.day_of_year = r.day_of_year ∧
    r2.quarter = r.quarter ∧ r2.time_period = r.time_period ∧
    r2.period = r.period ∧ r2.message_length = r.message_length ∧
    r2.word_count = r.word_count ∧ r2.is_media = r.is_media ∧
    r2.is_deleted = r.is_deleted ∧ r2.url_count = r.url_count ∧
    r2.has_url = r.has_url ∧ r2.emoji_count = r.emoji_count ∧
    r2.has_emoji = r.has_emoji ∧ r2.is_weekend = r.is_weekend ∧
    r2.is_business_hours = r.is_business_hours :=
  C8_enrichment_idempotent env0
    ⟨rfl, fun s => rfl, fun s h => h, fun s h => h⟩ cdt "alice" "hi there"

end WChat
